import Mathlib

/-!
Shallow embedding of `scripts/audit-pod-connectivity.py`.

The script scans pod logs for connectivity-error patterns, extracts failing
`host:port` endpoints, aggregates hit counts and prints a two-part report.

Modelling conventions:
* Python strings are Lean `String`s (sequences of code points); `len` and
  slicing become `String.length` / `List.take` on `String.toList`.
* The six case-insensitive `ERROR_PATTERNS` regexes and the two extraction
  regexes are hand-compiled into executable matchers.  Each matcher follows
  the regex it embeds literally: `search` tries every start position from the
  left, alternatives are tried left to right, `+`/`*`/`?` are greedy; where a
  greedy repetition cannot be followed by the next required token after
  giving back characters (because the character class excludes that token),
  the maximal munch is used without further backtracking, which is exactly
  the behaviour of the Python engine on these patterns.  Case-insensitivity
  is modelled by ASCII lowercasing (the pattern literals are ASCII).
* `subprocess` results, `kubectl` output and JSON parsing are modelled by an
  environment (`Env`) holding the pod-listing command result, the parse of
  its stdout, and a per-container fetch oracle; raised exceptions become
  `Except`/`Option` values.
* A Python `dict` (insertion ordered) is an association list; `defaultdict`
  increments become `bump`, plain assignment becomes `dictSet`.
* `print` output is the list of printed strings, standard out and standard
  error kept separately; the process exit status is a `Nat`.
-/

namespace Audit

/-- Whitespace as accepted by Python `str.strip` / `str.isspace` and by the
regex class `\s` (ASCII control whitespace plus the common Unicode spaces). -/
def pyIsSpace (c : Char) : Bool :=
  c == ' ' || c == '\t' || c == '\n' || c == '\r'
    || c.toNat == 0x0b || c.toNat == 0x0c
    || c.toNat == 0x1c || c.toNat == 0x1d || c.toNat == 0x1e || c.toNat == 0x1f
    || c.toNat == 0x85 || c.toNat == 0xa0 || c.toNat == 0x1680
    || (0x2000 ≤ c.toNat && c.toNat ≤ 0x200a)
    || c.toNat == 0x2028 || c.toNat == 0x2029
    || c.toNat == 0x202f || c.toNat == 0x205f || c.toNat == 0x3000

/-- Python `str.strip()`: remove leading and trailing whitespace. -/
def pyStrip (s : String) : String :=
  String.mk (((s.toList.dropWhile pyIsSpace).reverse.dropWhile pyIsSpace).reverse)

/-- Line-break characters recognised by Python `str.splitlines`. -/
def isLineBreak (c : Char) : Bool :=
  c == '\n' || c == '\r'
    || c.toNat == 0x0b || c.toNat == 0x0c
    || c.toNat == 0x1c || c.toNat == 0x1d || c.toNat == 0x1e
    || c.toNat == 0x85 || c.toNat == 0x2028 || c.toNat == 0x2029

/-- Python `str.splitlines`, accumulator holds the current line reversed.
`"\r\n"` counts as a single break; a trailing break produces no empty line. -/
def splitlinesAux : List Char → List Char → List (List Char)
  | [], acc => if acc.isEmpty then [] else [acc.reverse]
  | '\r' :: '\n' :: cs, acc => acc.reverse :: splitlinesAux cs []
  | c :: cs, acc =>
    if isLineBreak c then acc.reverse :: splitlinesAux cs []
    else splitlinesAux cs (c :: acc)

/-- Python `log_text.splitlines()`. -/
def splitlines (t : String) : List String :=
  (splitlinesAux t.toList []).map String.mk

/-- Does `p` occur as a leading segment of `s`? -/
def hasPfx : List Char → List Char → Bool
  | [], _ => true
  | _ :: _, [] => false
  | p :: ps, c :: cs => p == c && hasPfx ps cs

/-- Remove the leading segment `p` from `s`, when it is one. -/
def dropPfx : List Char → List Char → Option (List Char)
  | [], s => some s
  | _ :: _, [] => none
  | p :: ps, c :: cs => if p == c then dropPfx ps cs else none

/-- Does `pat` occur as a contiguous substring of `s`?  This is the
boolean content of `re.search` on a literal pattern. -/
def containsSub (pat : List Char) (s : List Char) : Bool :=
  s.tails.any (hasPfx pat)

/-- `re.search` for a boolean matcher: try to match at every start position. -/
def searchAny (m : List Char → Bool) (s : List Char) : Bool :=
  s.tails.any m

/-- ASCII lowercasing, modelling `re.IGNORECASE` on ASCII pattern literals. -/
def lower (s : List Char) : List Char :=
  s.map Char.toLower

/-- Match of
`dial tcp [^:]+:\d+:.*(?:i/o timeout|connection refused|operation was canceled)`
at the start of a (lowercased) suffix.  After the literal, `[^:]+` is the
maximal run of non-colon characters (the class excludes `:`, so no shorter
run can be followed by `:`), then `:`, then `\d+` likewise maximal, then `:`;
`.*(?:a|b|c)` on a line without newlines is substring containment. -/
def p1At (s : List Char) : Bool :=
  match dropPfx ("dial tcp ".toList) s with
  | none => false
  | some r =>
    let a := r.takeWhile (fun c => c != ':')
    if a.isEmpty then false
    else
      match r.dropWhile (fun c => c != ':') with
      | ':' :: r2 =>
        let d := r2.takeWhile Char.isDigit
        if d.isEmpty then false
        else
          match r2.dropWhile Char.isDigit with
          | ':' :: r3 =>
            containsSub ("i/o timeout".toList) r3
              || containsSub ("connection refused".toList) r3
              || containsSub ("operation was canceled".toList) r3
          | _ => false
      | _ => false

/-- `dial tcp [^:]+:\d+:.*(?:i/o timeout|connection refused|operation was canceled)`, `re.IGNORECASE`. -/
def p1 (line : String) : Bool :=
  searchAny p1At (lower line.toList)

/-- Match of `connection error.*dial tcp` at the start of a suffix. -/
def p2At (s : List Char) : Bool :=
  match dropPfx ("connection error".toList) s with
  | none => false
  | some r => containsSub ("dial tcp".toList) r

/-- `connection error.*dial tcp`, `re.IGNORECASE`. -/
def p2 (line : String) : Bool :=
  searchAny p2At (lower line.toList)

/-- `(?:NXDOMAIN|no such host)`, `re.IGNORECASE`. -/
def p3 (line : String) : Bool :=
  containsSub ("nxdomain".toList) (lower line.toList)
    || containsSub ("no such host".toList) (lower line.toList)

/-- Tail of pattern 4 after `connect(?:ion)?`: a space then
`(?:timed out|refused)`. -/
def p4Rest (r : List Char) : Bool :=
  match r with
  | ' ' :: r2 => hasPfx ("timed out".toList) r2 || hasPfx ("refused".toList) r2
  | _ => false

/-- Match of `connect(?:ion)? (?:timed out|refused)` at the start of a
suffix; the greedy optional group is tried with `ion` first. -/
def p4At (s : List Char) : Bool :=
  match dropPfx ("connect".toList) s with
  | none => false
  | some r =>
    (match dropPfx ("ion".toList) r with
     | some r2 => p4Rest r2
     | none => false)
      || p4Rest r

/-- `connect(?:ion)? (?:timed out|refused)`, `re.IGNORECASE`. -/
def p4 (line : String) : Bool :=
  searchAny p4At (lower line.toList)

/-- `upstream connect error|503 Service Unavailable`, `re.IGNORECASE`. -/
def p5 (line : String) : Bool :=
  containsSub ("upstream connect error".toList) (lower line.toList)
    || containsSub ("503 service unavailable".toList) (lower line.toList)

/-- `failed to connect to`, `re.IGNORECASE`. -/
def p6 (line : String) : Bool :=
  containsSub ("failed to connect to".toList) (lower line.toList)

/-- The fixed ordered pattern list `ERROR_PATTERNS` of the script. -/
def ERROR_PATTERNS : List (String → Bool) :=
  [p1, p2, p3, p4, p5, p6]

/-- The inner loop of `scan_logs`: try the patterns in order, stopping at
the first match (`break`). -/
def firstMatch : List (String → Bool) → String → Bool
  | [], _ => false
  | p :: ps, l => if p l then true else firstMatch ps l

/-- `scan_logs`: collect `line.strip()` for every line on which some
pattern fires, in source order. -/
def scan_logs (log_text : String) : List String :=
  (splitlines log_text).foldl
    (fun hits line =>
      if firstMatch ERROR_PATTERNS line then hits ++ [pyStrip line] else hits)
    []

/-- Match of `ep_re = dial tcp ([^\s:]+:\d+)` at the start of a suffix,
returning the captured group.  `[^\s:]+` is the maximal run of
non-whitespace non-colon characters (the class excludes `:`, so no shorter
run can be followed by `:`), then `:`, then `\d+` maximal. -/
def epAt (s : List Char) : Option (List Char) :=
  match dropPfx ("dial tcp ".toList) s with
  | none => none
  | some r =>
    let h := r.takeWhile (fun c => !pyIsSpace c && c != ':')
    if h.isEmpty then none
    else
      match r.dropWhile (fun c => !pyIsSpace c && c != ':') with
      | ':' :: r2 =>
        let d := r2.takeWhile Char.isDigit
        if d.isEmpty then none else some (h ++ ':' :: d)
      | _ => none

/-- Leftmost-position search for a capturing matcher: return the capture of
the first start position at which the matcher succeeds. -/
def firstSome (f : List Char → Option (List Char)) : List Char → Option (List Char)
  | [] => f []
  | c :: cs => f (c :: cs) <|> firstSome f cs

/-- Characters of the class `[a-zA-Z0-9._-]` in `host_re`. -/
def hostChar (c : Char) : Bool :=
  c.isAlpha || c.isDigit || c == '.' || c == '_' || c == '-'

/-- The capturing group `([a-zA-Z0-9._-]+:\d+)` of `host_re`: maximal run of
host characters (the class excludes `:`), then `:`, then `\d+`. -/
def capHost (r : List Char) : Option (List Char) :=
  let h := r.takeWhile hostChar
  if h.isEmpty then none
  else
    match r.dropWhile hostChar with
    | ':' :: r2 =>
      let d := r2.takeWhile Char.isDigit
      if d.isEmpty then none else some (h ++ ':' :: d)
    | _ => none

/-- Optional single character (`x?` in a regex): greedy, so the
consuming alternative comes first. -/
def optChar (c : Char) (r : List Char) : List (List Char) :=
  match r with
  | x :: xs => if x == c then [xs, x :: xs] else [x :: xs]
  | [] => [[]]

/-- Continuations after `Addr:\s*\\?"?`: `\s*` is the maximal run of
whitespace (none of `\`, `"` or a host character is whitespace, so giving
back whitespace can never enable the rest), then the greedy optional
backslash and the greedy optional quote, in backtracking order. -/
def addrTails (r : List Char) : List (List Char) :=
  let r0 := r.dropWhile pyIsSpace
  ((optChar '\\' r0).map (optChar '"')).flatten

/-- First candidate continuation on which a capture succeeds. -/
def findFirst (f : List Char → Option (List Char)) : List (List Char) → Option (List Char)
  | [] => none
  | r :: rs => f r <|> findFirst f rs

/-- Match of `host_re = (?:connect to|connecting to|Addr:\s*\\?"?)([a-zA-Z0-9._-]+:\d+)`
at the start of a suffix, returning the capture.  The three prefix
alternatives are tried left to right; they are mutually exclusive, so the
engine's cross-alternative backtracking cannot add matches. -/
def hostAt (s : List Char) : Option (List Char) :=
  (match dropPfx ("connect to".toList) s with
   | some r => capHost r
   | none => none)
    <|> (match dropPfx ("connecting to".toList) s with
         | some r => capHost r
         | none => none)
    <|> (match dropPfx ("Addr:".toList) s with
         | some r => findFirst capHost (addrTails r)
         | none => none)

/-- The per-line body of `extract_endpoints`: `ep_re.search` first, then
`host_re.search`, stopping at the first regex that matches (`break`). -/
def extractLine (line : String) : Option String :=
  match firstSome epAt line.toList with
  | some g => some (String.mk g)
  | none =>
    match firstSome hostAt line.toList with
    | some g => some (String.mk g)
    | none => none

/-- `defaultdict(int)` update `d[k] += n`: bump the unique entry for `k` in
place, or append a fresh entry at the end (insertion order). -/
def bump : List (String × Nat) → String → Nat → List (String × Nat)
  | [], k, n => [(k, n)]
  | p :: ps, k, n => if p.1 = k then (p.1, p.2 + n) :: ps else p :: bump ps k n

/-- Value of key `e` in an association list, `0` when absent
(`defaultdict(int)` read). -/
def countOf : List (String × Nat) → String → Nat
  | [], _ => 0
  | p :: ps, e => if p.1 = e then p.2 else countOf ps e

/-- `extract_endpoints`: per-line extraction, tallied into an
insertion-ordered dictionary. -/
def extract_endpoints (hits : List String) : List (String × Nat) :=
  hits.foldl
    (fun d line =>
      match extractLine line with
      | some ep => bump d ep 1
      | none => d)
    []

/-- Sum of the values attached to key `e` in a list of `(key, value)` pairs. -/
def sumFor (items : List (String × Nat)) (e : String) : Nat :=
  (items.map (fun p => if p.1 = e then p.2 else 0)).sum

/-- The merge loop of `main`:
`for ep, count in extract_endpoints(hits).items(): all_endpoints[ep] += count`. -/
def mergeEndpoints (acc : List (String × Nat)) (items : List (String × Nat)) :
    List (String × Nat) :=
  items.foldl (fun a p => bump a p.1 p.2) acc

/-- The global tally `all_endpoints` produced by `main`'s container loop from
the per-container hit lists (`if hits:` guard as in the source). -/
def aggregateTally (cs : List (List String)) : List (String × Nat) :=
  cs.foldl
    (fun acc hits =>
      if hits = [] then acc else mergeEndpoints acc (extract_endpoints hits))
    []

/-- Stable insertion for `sortBy`: `x` goes in front of the first `y`
with `le x y`. -/
def insBy (le : α → α → Bool) (x : α) : List α → List α
  | [] => [x]
  | y :: ys => if le x y then x :: y :: ys else y :: insBy le x ys

/-- Stable sort (insertion sort).  Python's `sorted` is a stable sort; for a
total preorder `le` both produce the same list, namely the unique `le`-sorted
reordering in which equivalent elements keep their relative order. -/
def sortBy (le : α → α → Bool) (l : List α) : List α :=
  l.foldr (insBy le) []

/-- `sorted(..., key=lambda x: -x[1])`: stable, by descending count. -/
def sortCountDesc (l : List (α × Nat)) : List (α × Nat) :=
  sortBy (fun p q => decide (q.2 ≤ p.2)) l

/-- `sorted(findings.items())`: keys are unique in a dict, so tuple order is
lexicographic order on the key strings (code-point order, as in Python). -/
def sortByKey (l : List (String × α)) : List (String × α) :=
  sortBy (fun p q => decide (p.1 ≤ q.1)) l

/-- Python `dict` assignment `d[k] = v`: overwrite the unique entry in
place, or append. -/
def dictSet (d : List (String × α)) (k : String) (v : α) : List (String × α) :=
  match d with
  | [] => [(k, v)]
  | p :: ps => if p.1 = k then (p.1, v) :: ps else p :: dictSet ps k v

/-- The 70-character `=` separator row. -/
def eq70 : String :=
  String.mk (List.replicate 70 '=')

/-- Python format `f"{s:45s}"`: pad right with spaces to width 45. -/
def padRight (w : Nat) (s : String) : String :=
  s ++ String.mk (List.replicate (w - s.length) ' ')

/-- Python format `f"{n:>5}"`: pad left with spaces to width 5. -/
def padLeft (w : Nat) (s : String) : String :=
  String.mk (List.replicate (w - s.length) ' ') ++ s

/-- One row of the endpoint summary: `f"  {ep:45s} {count:>5} hits"`. -/
def fmtEndpoint (p : String × Nat) : String :=
  "  " ++ padRight 45 p.1 ++ " " ++ padLeft 5 (toString p.2) ++ " hits"

/-- The `FAILING ENDPOINTS` block of `main`. -/
def renderSummary (eps : List (String × Nat)) : List String :=
  [eq70, "FAILING ENDPOINTS (aggregated)", eq70]
    ++ (sortCountDesc eps).map fmtEndpoint

/-- Truncation of a detail row: `if len(line) > 120: line = line[:117] + "..."`. -/
def truncateLine (line : String) : String :=
  if line.length > 120 then String.mk (line.toList.take 117 ++ "...".toList)
  else line

/-- One displayed hit row: count prefix (only when the line repeats),
then the possibly truncated line. -/
def fmtHit (p : String × Nat) : String :=
  (if 1 < p.2 then "    [" ++ toString p.2 ++ "x] " else "    ") ++ truncateLine p.1

/-- The overage notice printed when more than 5 distinct lines exist. -/
def ovLine (n : Nat) : String :=
  "    ... and " ++ toString n ++ " more unique error lines"

/-- `line_counts`: deduplicate a container's hit lines into an
insertion-ordered dictionary of occurrence counts. -/
def line_counts (hits : List String) : List (String × Nat) :=
  hits.foldl (fun d h => bump d h 1) []

/-- The per-container block of the detail report: header row, top 5 rows by
descending count, and the overage notice when more than 5 distinct lines
exist. -/
def renderContainer (k : String) (hits : List String) : List String :=
  ("\n  " ++ k ++ ":")
    :: ((sortCountDesc (line_counts hits)).take 5).map fmtHit
    ++ (if 5 < (line_counts hits).length then [ovLine ((line_counts hits).length - 5)]
        else [])

/-- The `AFFECTED PODS` block of `main`: containers in ascending key order. -/
def renderDetail (fs : List (String × List String)) : List String :=
  ("\n" ++ eq70)
    :: ("AFFECTED PODS (" ++ toString fs.length ++ " containers)")
    :: eq70
    :: (sortByKey fs).foldl (fun acc p => acc ++ renderContainer p.1 p.2) []

/-- A pod record as consumed from the pod listing: `metadata.name`,
`metadata.namespace`, `spec.containers[].name` (a pod with missing or
malformed container fields is modelled by an empty container list, as the
source's `pod.get("spec", {}).get("containers", [])` does). -/
structure Pod where
  name : String
  ns : String
  containers : List String
deriving DecidableEq

/-- One container occurrence in the scan order. -/
structure PodC where
  ns : String
  pod : String
  container : String
deriving DecidableEq

/-- The container key `f"{ns}/{pod_name}/{container}"`. -/
def containerKey (c : PodC) : String :=
  c.ns ++ "/" ++ c.pod ++ "/" ++ c.container

/-- The containers visited by `main`'s nested `for pod ... for container`
loops, flattened in iteration order. -/
def contsOf (pods : List Pod) : List PodC :=
  (pods.map (fun p => p.containers.map (fun c => PodC.mk p.ns p.name c))).flatten

/-- Outcome of the `kubectl logs` subprocess for one container: either it
completed (with whatever it wrote to standard output and its exit status),
or the 30-second timeout elapsed and `subprocess.run` raised
`TimeoutExpired`. -/
inductive FetchResult where
  | ok (out : String) (returncode : Int)
  | timeout
deriving DecidableEq

/-- `get_logs`: returns `result.stdout` of the completed command — the exit
status is never inspected — and propagates `TimeoutExpired` as an error. -/
def get_logs (r : FetchResult) : Except Unit String :=
  match r with
  | .ok out _rc => Except.ok out
  | .timeout => Except.error ()

/-- Result of the `kubectl get pods -o json` subprocess. -/
structure CmdResult where
  returncode : Int
  out : String
  err : String

/-- CLI arguments (`--since`, `--tail`). -/
structure Args where
  since : String
  tail : Nat

/-- The program's external world: the pod-listing command result, the result
of parsing its standard output (`json.loads(...)["items"]` plus the
per-pod field accesses; `none` models a raised parse/shape exception), the
per-container log fetch, and the parsed CLI arguments. -/
structure Env where
  podQuery : CmdResult
  parsePods : Option (List Pod)
  fetch : PodC → FetchResult
  args : Args

/-- `get_pods`: `sys.exit(1)` with an error message when the command fails;
an unparseable stdout raises, which also terminates the process with a
nonzero status (modelled as the same fatal error path, carrying the
interpreter's traceback). -/
def get_pods (e : Env) : Except (List String) (List Pod) :=
  if e.podQuery.returncode ≠ 0 then
    Except.error ["ERROR: kubectl get pods failed: " ++ e.podQuery.err]
  else
    match e.parsePods with
    | some pods => Except.ok pods
    | none => Except.error ["Traceback (most recent call last): ..."]

/-- Mutable state of `main`'s container loop. -/
structure St where
  findings : List (String × List String)
  all_endpoints : List (String × Nat)
deriving DecidableEq

/-- The initial loop state: `findings = {}`, `all_endpoints = defaultdict(int)`. -/
def initSt : St :=
  ⟨[], []⟩

/-- The warning printed to standard error on a fetch timeout. -/
def warnLine (c : PodC) : String :=
  "  WARN: timeout reading logs from " ++ containerKey c

/-- The body of `main`'s loop after a successful fetch: scan, and when there
are hits record them under the container key and merge the extracted
endpoint counts into the global tally. -/
def processHits (st : St) (c : PodC) (hits : List String) : St :=
  if hits = [] then st
  else
    { findings := dictSet st.findings (containerKey c) hits
      all_endpoints := mergeEndpoints st.all_endpoints (extract_endpoints hits) }

/-- One iteration of `main`'s container loop: state transition plus the
standard-error lines it emits (`except subprocess.TimeoutExpired` prints a
warning and continues). -/
def stepContainer (fetch : PodC → FetchResult) (st : St) (c : PodC) :
    St × List String :=
  match get_logs (fetch c) with
  | .error _ => (st, [warnLine c])
  | .ok logs => (processHits st c (scan_logs logs), [])

/-- `main`'s container loop over a container list: final state and the
standard-error lines, in emission order. -/
def runConts (fetch : PodC → FetchResult) : List PodC → St → St × List String
  | [], st => (st, [])
  | c :: cs, st =>
    ((runConts fetch cs (stepContainer fetch st c).1).1,
      (stepContainer fetch st c).2
        ++ (runConts fetch cs (stepContainer fetch st c).1).2)

/-- The `Scanning N pods (since=..., tail=...)...` header (the trailing
`\n` inside the f-string yields a blank line after it). -/
def scanHeader (n : Nat) (a : Args) : String :=
  "Scanning " ++ toString n ++ " pods (since=" ++ a.since ++ ", tail="
    ++ toString a.tail ++ ")...\n"

/-- `main`: exit status, standard-output lines (one element per `print`
call) and standard-error lines. -/
def mainRun (e : Env) : Nat × List String × List String :=
  match get_pods e with
  | .error msgs => (1, [], msgs)
  | .ok pods =>
    let r := runConts e.fetch (contsOf pods) initSt
    if r.1.findings = [] then
      (0, [scanHeader pods.length e.args, "No connectivity errors found."], r.2)
    else
      (0,
        scanHeader pods.length e.args
          :: (renderSummary r.1.all_endpoints ++ renderDetail r.1.findings),
        r.2)


/-! ### Helper lemmas about the dictionary operations -/

theorem countOf_bump (d : List (String × Nat)) (k : String) (n : Nat) (e : String) :
    countOf (bump d k n) e = countOf d e + (if k = e then n else 0) := by
  induction d with
  | nil => by_cases h : k = e <;> simp [bump, countOf, h]
  | cons p ps ih =>
    by_cases h1 : p.1 = k
    · by_cases h2 : p.1 = e
      · have hk : k = e := h1.symm.trans h2
        simp [bump, countOf, h1, h2, hk]
      · have hk : ¬ k = e := fun h => h2 (h1.symm ▸ h)
        simp [bump, countOf, h1, h2, hk]
    · by_cases h2 : p.1 = e
      · have hk : ¬ k = e := fun h => h1 (h2.trans h.symm)
        have hk2 : ¬ e = k := fun h => hk h.symm
        simp [bump, countOf, h1, h2, hk, hk2]
      · simp [bump, countOf, h1, h2, ih]

theorem countOf_mergeEndpoints (items : List (String × Nat))
    (acc : List (String × Nat)) (e : String) :
    countOf (mergeEndpoints acc items) e = countOf acc e + sumFor items e := by
  induction items generalizing acc with
  | nil => simp [mergeEndpoints, sumFor]
  | cons p ps ih =>
    have step : mergeEndpoints acc (p :: ps) = mergeEndpoints (bump acc p.1 p.2) ps := rfl
    rw [step, ih, countOf_bump]
    by_cases h : p.1 = e <;> (simp [sumFor, h]; try omega)

/-- Keys of an association list are pairwise distinct (the `dict` invariant). -/
def keysDisj (d : List (String × Nat)) : Prop :=
  d.Pairwise (fun p q => p.1 ≠ q.1)

theorem fst_mem_bump (d : List (String × Nat)) (k : String) (n : Nat) :
    ∀ x ∈ bump d k n, x.1 = k ∨ ∃ y ∈ d, x.1 = y.1 := by
  induction d with
  | nil =>
    intro x hx
    simp [bump] at hx
    simp [hx]
  | cons p ps ih =>
    intro x hx
    by_cases h1 : p.1 = k
    · simp [bump, h1] at hx
      rcases hx with h | h
      · exact Or.inl (by simp [h, h1])
      · exact Or.inr ⟨x, by simp [h]⟩
    · simp [bump, h1] at hx
      rcases hx with h | h
      · exact Or.inr ⟨p, by simp [h]⟩
      · rcases ih x h with h2 | ⟨y, hy, h2⟩
        · exact Or.inl h2
        · exact Or.inr ⟨y, by simp [hy], h2⟩

theorem keysDisj_bump (d : List (String × Nat)) (k : String) (n : Nat)
    (h : keysDisj d) : keysDisj (bump d k n) := by
  induction d with
  | nil => simp [bump, keysDisj]
  | cons p ps ih =>
    rw [keysDisj, List.pairwise_cons] at h
    obtain ⟨hp, hps⟩ := h
    by_cases h1 : p.1 = k
    · rw [keysDisj, bump, if_pos h1, List.pairwise_cons]
      exact ⟨hp, hps⟩
    · rw [keysDisj, bump, if_neg h1, List.pairwise_cons]
      refine ⟨?_, ih hps⟩
      intro x hx
      rcases fst_mem_bump ps k n x hx with h2 | ⟨y, hy, h2⟩
      · exact fun hcon => h1 (hcon.trans h2)
      · exact fun hcon => hp y hy (hcon.trans h2)

theorem sumFor_eq_zero (d : List (String × Nat)) (e : String)
    (h : ∀ p ∈ d, p.1 ≠ e) : sumFor d e = 0 := by
  induction d with
  | nil => simp [sumFor]
  | cons p ps ih =>
    have h1 : ¬ p.1 = e := h p (by simp)
    have h2 : sumFor ps e = 0 := ih (fun q hq => h q (by simp [hq]))
    simp [sumFor, h1]
    simpa [sumFor] using h2

theorem sumFor_eq_countOf (d : List (String × Nat)) (e : String)
    (h : keysDisj d) : sumFor d e = countOf d e := by
  induction d with
  | nil => simp [sumFor, countOf]
  | cons p ps ih =>
    rw [keysDisj, List.pairwise_cons] at h
    obtain ⟨hp, hps⟩ := h
    by_cases h1 : p.1 = e
    · have hz : sumFor ps e = 0 :=
        sumFor_eq_zero ps e (fun q hq hc => hp q hq (h1.trans hc.symm))
      simp [sumFor, countOf, h1] at hz ⊢
      simpa [sumFor] using hz
    · simp [sumFor, countOf, h1]
      simpa [sumFor] using ih hps

theorem keysDisj_extract (hits : List String) :
    keysDisj (extract_endpoints hits) := by
  have aux : ∀ (ls : List String) (d : List (String × Nat)), keysDisj d →
      keysDisj (ls.foldl
        (fun d line =>
          match extractLine line with
          | some ep => bump d ep 1
          | none => d) d) := by
    intro ls
    induction ls with
    | nil => intro d hd; simpa using hd
    | cons l ls ih =>
      intro d hd
      simp only [List.foldl_cons]
      cases h : extractLine l with
      | none => exact ih d (by simpa [h] using hd)
      | some ep =>
        have := keysDisj_bump d ep 1 hd
        simpa [h] using ih (bump d ep 1) this
  exact aux hits [] (by simp [keysDisj])

theorem countOf_aggregateAux (cs : List (List String))
    (acc : List (String × Nat)) (e : String) :
    countOf
        (cs.foldl
          (fun acc hits =>
            if hits = [] then acc else mergeEndpoints acc (extract_endpoints hits))
          acc) e
      = countOf acc e + (cs.map (fun h => countOf (extract_endpoints h) e)).sum := by
  induction cs generalizing acc with
  | nil => simp
  | cons hits cs ih =>
    simp only [List.foldl_cons, List.map_cons, List.sum_cons]
    by_cases h0 : hits = []
    · subst h0
      have hz : countOf (extract_endpoints ([] : List String)) e = 0 := rfl
      simp [ih, hz]
    · rw [if_neg h0, ih, countOf_mergeEndpoints,
        sumFor_eq_countOf (extract_endpoints hits) e (keysDisj_extract hits)]
      omega

theorem countOf_line_counts (hits : List String) (l : String) :
    countOf (line_counts hits) l = hits.count l := by
  have aux : ∀ (hs : List String) (d : List (String × Nat)),
      countOf (hs.foldl (fun d h => bump d h 1) d) l = countOf d l + hs.count l := by
    intro hs
    induction hs with
    | nil => intro d; simp
    | cons h hs ih =>
      intro d
      simp only [List.foldl_cons]
      rw [ih, countOf_bump]
      by_cases he : h = l <;> (simp [he, List.count_cons]; try omega)
  simpa [line_counts, countOf] using aux hits []

/-! ### Helper lemmas about the scanner -/

theorem firstMatch_eq_any (ps : List (String → Bool)) (l : String) :
    firstMatch ps l = ps.any (fun p => p l) := by
  induction ps with
  | nil => rfl
  | cons p ps ih => by_cases h : p l <;> simp [firstMatch, h, ih]

theorem scan_foldl (lines : List String) (acc : List String) :
    lines.foldl
        (fun hits line =>
          if firstMatch ERROR_PATTERNS line then hits ++ [pyStrip line] else hits)
        acc
      = acc ++ (lines.filter (fun l => ERROR_PATTERNS.any (fun p => p l))).map pyStrip := by
  induction lines generalizing acc with
  | nil => simp
  | cons l ls ih =>
    simp only [List.foldl_cons]
    rw [ih]
    by_cases h : firstMatch ERROR_PATTERNS l
    · have h2 : ERROR_PATTERNS.any (fun p => p l) = true := by
        rw [← firstMatch_eq_any]; exact h
      simp [List.filter_cons, h2, h]
    · have h2 : ERROR_PATTERNS.any (fun p => p l) = false := by
        rw [← firstMatch_eq_any]; simpa using h
      simp [List.filter_cons, h2, h]

/-! ### Helper lemmas about the stable sorts -/

theorem insBy_perm (le : α → α → Bool) (x : α) (l : List α) :
    (insBy le x l).Perm (x :: l) := by
  induction l with
  | nil => exact List.Perm.refl _
  | cons y ys ih =>
    by_cases h : le x y
    · rw [insBy, if_pos h]
    · rw [insBy, if_neg h]
      exact (ih.cons y).trans (List.Perm.swap x y ys)

theorem sortBy_perm (le : α → α → Bool) (l : List α) : (sortBy le l).Perm l := by
  induction l with
  | nil => exact List.Perm.refl _
  | cons x xs ih =>
    exact (insBy_perm le x (sortBy le xs)).trans (ih.cons x)

theorem pairwise_insBy (le : α → α → Bool)
    (htot : ∀ a b, le a b = true ∨ le b a = true)
    (htr : ∀ a b c, le a b = true → le b c = true → le a c = true)
    (x : α) (l : List α) (h : l.Pairwise (fun a b => le a b = true)) :
    (insBy le x l).Pairwise (fun a b => le a b = true) := by
  induction l with
  | nil => simp [insBy]
  | cons y ys ih =>
    rw [List.pairwise_cons] at h
    obtain ⟨hy, hys⟩ := h
    by_cases hxy : le x y = true
    · rw [insBy, if_pos hxy, List.pairwise_cons]
      refine ⟨?_, List.pairwise_cons.mpr ⟨hy, hys⟩⟩
      intro z hz
      rcases List.mem_cons.mp hz with rfl | hz2
      · exact hxy
      · exact htr x y z hxy (hy z hz2)
    · rw [insBy, if_neg hxy, List.pairwise_cons]
      refine ⟨?_, ih hys⟩
      intro z hz
      have hz2 : z = x ∨ z ∈ ys := by
        simpa using (insBy_perm le x ys).mem_iff.mp hz
      rcases hz2 with heq | hz2
      · rcases htot x y with h2 | h2
        · exact absurd h2 hxy
        · exact heq.symm ▸ h2
      · exact hy z hz2

theorem pairwise_sortBy (le : α → α → Bool)
    (htot : ∀ a b, le a b = true ∨ le b a = true)
    (htr : ∀ a b c, le a b = true → le b c = true → le a c = true)
    (l : List α) :
    (sortBy le l).Pairwise (fun a b => le a b = true) := by
  induction l with
  | nil => simp [sortBy]
  | cons x xs ih => exact pairwise_insBy le htot htr x (sortBy le xs) ih

/-! ### Claim theorems -/

/-- C2, counterexample: on the hit line
`failed to connect to svc.internal:8080` the Extractor does not map
`svc.internal:8080` to 1 — it extracts nothing, because in `host_re` the
captured token must immediately follow the literal `connect to` and the
line has a space there. -/
theorem second_pattern_claim_cex :
    countOf (extract_endpoints ["failed to connect to svc.internal:8080"])
        "svc.internal:8080" ≠ 1 := by
  decide

/-- C2, amended: the line `failed to connect to svc.internal:8080` is a hit
(the sixth scan pattern fires), but neither extraction regex matches it —
`ep_re` needs the literal `dial tcp `, and in `host_re` the character class
`[a-zA-Z0-9._-]+` must start immediately after `connect to`, where the line
has a space — so the line contributes no endpoint and `extract_endpoints`
on it yields the empty mapping. -/
theorem second_pattern_no_endpoint :
    firstMatch ERROR_PATTERNS "failed to connect to svc.internal:8080" = true
      ∧ firstSome epAt ("failed to connect to svc.internal:8080".toList) = none
      ∧ firstSome hostAt ("failed to connect to svc.internal:8080".toList) = none
      ∧ extract_endpoints ["failed to connect to svc.internal:8080"] = [] := by
  decide

/-- C3: `scan_logs` returns exactly the whitespace-trimmed matching lines in
source order — equivalently, the filter of the split lines by "some pattern
matches", mapped through `strip`.  Hence each line contributes at most one
hit (a line matching several patterns is recorded once, by the `break`),
and a text with no matching line yields `[]`. -/
theorem scanner_filters_lines (t : String) :
    scan_logs t
        = ((splitlines t).filter (fun l => ERROR_PATTERNS.any (fun p => p l))).map pyStrip
      ∧ (scan_logs t).length
        = ((splitlines t).filter (fun l => ERROR_PATTERNS.any (fun p => p l))).length
      ∧ ((∀ l ∈ splitlines t, ERROR_PATTERNS.any (fun p => p l) = false) →
          scan_logs t = []) := by
  have h := scan_foldl (splitlines t) []
  refine ⟨by simpa [scan_logs] using h, ?_, ?_⟩
  · rw [scan_logs, h]
    simp
  · intro hall
    rw [scan_logs, h]
    simp only [List.nil_append, List.map_eq_nil_iff]
    rw [List.filter_eq_nil_iff]
    intro a ha
    simp [hall a ha]

/-- C3 witness: a text with no matching line, on which the scanner
returns the empty hit sequence. -/
theorem scanner_filters_lines_witness :
    (∀ l ∈ splitlines "all good here\nstill fine", ERROR_PATTERNS.any (fun p => p l) = false)
      ∧ scan_logs "all good here\nstill fine" = [] :=
  ⟨by decide, (scanner_filters_lines "all good here\nstill fine").2.2 (by decide)⟩

/-- C4: the global endpoint tally built by `main`'s loop maps each endpoint
to the sum of the per-container extracted counts, and a permutation of the
container processing order leaves every final count unchanged. -/
theorem global_tally_is_sum (cs cs2 : List (List String)) (ep : String)
    (h : cs.Perm cs2) :
    countOf (aggregateTally cs) ep
        = (cs.map (fun hits => countOf (extract_endpoints hits) ep)).sum
      ∧ countOf (aggregateTally cs) ep = countOf (aggregateTally cs2) ep := by
  have h1 := countOf_aggregateAux cs [] ep
  have h2 := countOf_aggregateAux cs2 [] ep
  simp only [countOf] at h1 h2
  rw [aggregateTally, h1]
  rw [aggregateTally, h2]
  refine ⟨by omega, ?_⟩
  have := List.Perm.sum_eq (h.map (fun hits => countOf (extract_endpoints hits) ep))
  omega

/-- C4 witness: a two-container assignment and its swap. -/
theorem global_tally_is_sum_witness :
    countOf (aggregateTally [["dial tcp 10.0.0.5:443: i/o timeout"], []]) "10.0.0.5:443"
        = ([["dial tcp 10.0.0.5:443: i/o timeout"], []].map
            (fun hits => countOf (extract_endpoints hits) "10.0.0.5:443")).sum
      ∧ countOf (aggregateTally [["dial tcp 10.0.0.5:443: i/o timeout"], []]) "10.0.0.5:443"
        = countOf (aggregateTally [[], ["dial tcp 10.0.0.5:443: i/o timeout"]]) "10.0.0.5:443" :=
  global_tally_is_sum _ _ _
    (List.Perm.swap ([] : List String) ["dial tcp 10.0.0.5:443: i/o timeout"] [])

/-- C5: the hit line `dial tcp 10.0.0.5:443: i/o timeout` matches the scan
patterns, and the Extractor's first regex (`ep_re`, anchored on `dial tcp`)
captures `10.0.0.5:443`, so the line maps that endpoint to 1. -/
theorem dial_tcp_extraction :
    firstMatch ERROR_PATTERNS "dial tcp 10.0.0.5:443: i/o timeout" = true
      ∧ firstSome epAt ("dial tcp 10.0.0.5:443: i/o timeout".toList)
        = some ("10.0.0.5:443".toList)
      ∧ extract_endpoints ["dial tcp 10.0.0.5:443: i/o timeout"]
        = [("10.0.0.5:443", 1)] := by
  decide

/-- C6: the detail report iterates containers in ascending lexicographic
key order; within a container the deduplicated `(line, count)` pairs carry
the true occurrence counts, are listed by descending count, at most the top
5 are shown, and a container with exactly 8 distinct hit lines shows a
header, exactly 5 hit rows and the notice `... and 3 more unique error
lines` as its last row. -/
theorem detail_report_shape (fs : List (String × List String)) (k : String)
    (hits : List String) (h8 : (line_counts hits).length = 8) :
    (sortByKey fs).Pairwise (fun a b => a.1 ≤ b.1)
      ∧ (sortCountDesc (line_counts hits)).Pairwise (fun a b => b.2 ≤ a.2)
      ∧ (sortCountDesc (line_counts hits)).Perm (line_counts hits)
      ∧ (∀ l : String, countOf (line_counts hits) l = hits.count l)
      ∧ ((sortCountDesc (line_counts hits)).take 5).length
        = min 5 (line_counts hits).length
      ∧ (renderContainer k hits).length = 7
      ∧ (renderContainer k hits).getLast? = some (ovLine 3)
      ∧ ovLine 3 = "    ... and 3 more unique error lines" := by
  have hkey : (sortByKey fs).Pairwise (fun a b => a.1 ≤ b.1) := by
    have h1 := pairwise_sortBy
      (fun p q : String × List String => decide (p.1 ≤ q.1))
      (fun a b => by
        rcases le_total a.1 b.1 with h | h
        · exact Or.inl (by simpa using h)
        · exact Or.inr (by simpa using h))
      (fun a b c hab hbc => by
        simp only [decide_eq_true_eq] at hab hbc ⊢
        exact le_trans hab hbc)
      fs
    exact h1.imp (fun h => by simpa using h)
  have hdesc : (sortCountDesc (line_counts hits)).Pairwise (fun a b => b.2 ≤ a.2) := by
    have h1 := pairwise_sortBy
      (fun p q : String × Nat => decide (q.2 ≤ p.2))
      (fun a b => by
        rcases le_total b.2 a.2 with h | h
        · exact Or.inl (by simpa using h)
        · exact Or.inr (by simpa using h))
      (fun a b c hab hbc => by
        simp only [decide_eq_true_eq] at hab hbc ⊢
        exact le_trans hbc hab)
      (line_counts hits)
    exact h1.imp (fun h => by simpa using h)
  have hperm : (sortCountDesc (line_counts hits)).Perm (line_counts hits) :=
    sortBy_perm _ _
  have hslen : (sortCountDesc (line_counts hits)).length = 8 := by
    rw [hperm.length_eq, h8]
  have htake : ((sortCountDesc (line_counts hits)).take 5).length
      = min 5 (line_counts hits).length := by
    rw [List.length_take, hperm.length_eq]
  have hform : renderContainer k hits
      = (("\n  " ++ k ++ ":")
          :: ((sortCountDesc (line_counts hits)).take 5).map fmtHit)
        ++ [ovLine 3] := by
    rw [renderContainer, h8]
    norm_num
  refine ⟨hkey, hdesc, hperm, countOf_line_counts hits, htake, ?_, ?_, rfl⟩
  · rw [hform]
    simp [List.length_take, hslen]
  · rw [hform, List.getLast?_concat]

/-- C6 witness: a container with exactly 8 distinct hit lines shows 7 rows,
the last being the `and 3 more` notice. -/
theorem detail_report_shape_witness :
    (line_counts ["a", "b", "c", "d", "e", "f", "g", "h"]).length = 8
      ∧ (renderContainer "default/pod/app" ["a", "b", "c", "d", "e", "f", "g", "h"]).length = 7
      ∧ (renderContainer "default/pod/app" ["a", "b", "c", "d", "e", "f", "g", "h"]).getLast?
        = some (ovLine 3) :=
  ⟨by decide,
    (detail_report_shape [] "default/pod/app" ["a", "b", "c", "d", "e", "f", "g", "h"]
      (by decide)).2.2.2.2.2.1,
    (detail_report_shape [] "default/pod/app" ["a", "b", "c", "d", "e", "f", "g", "h"]
      (by decide)).2.2.2.2.2.2.1⟩

/-- C7: a detail row is rewritten exactly when its length exceeds 120
characters, to its first 117 characters followed by the 3-character marker
`...`; any such rewritten row displays exactly 120 characters, and in
particular a 121-character row does. -/
theorem truncation_boundary (line : String) :
    (line.length ≤ 120 → truncateLine line = line)
      ∧ (120 < line.length →
          truncateLine line = String.mk (line.toList.take 117 ++ "...".toList)
            ∧ (truncateLine line).length = 120)
      ∧ (line.length = 121 →
          (truncateLine line).length = 120
            ∧ (truncateLine line).toList = line.toList.take 117 ++ "...".toList) := by
  have htl : line.toList.length = line.length := rfl
  have hbig : 120 < line.length →
      truncateLine line = String.mk (line.toList.take 117 ++ "...".toList)
        ∧ (truncateLine line).length = 120 := by
    intro h
    have heq : truncateLine line = String.mk (line.toList.take 117 ++ "...".toList) := by
      rw [truncateLine, if_pos (by omega)]
    refine ⟨heq, ?_⟩
    rw [heq]
    show (line.toList.take 117 ++ "...".toList).length = 120
    rw [List.length_append, List.length_take, htl]
    have h3 : ("...".toList).length = 3 := rfl
    rw [h3]
    omega
  refine ⟨?_, hbig, ?_⟩
  · intro h
    rw [truncateLine, if_neg (by omega)]
  · intro h
    have h2 : 120 < line.length := by omega
    refine ⟨(hbig h2).2, ?_⟩
    rw [(hbig h2).1]
    rfl

/-- C7 witness: a 121-character line displays as exactly 120 characters. -/
theorem truncation_boundary_witness :
    (String.mk (List.replicate 121 'a')).length = 121
      ∧ (truncateLine (String.mk (List.replicate 121 'a'))).length = 120 :=
  ⟨by decide,
    ((truncation_boundary (String.mk (List.replicate 121 'a'))).2.2 (by decide)).1⟩

theorem runConts_append (fetch : PodC → FetchResult) (a b : List PodC) (st : St) :
    runConts fetch (a ++ b) st
      = ((runConts fetch b (runConts fetch a st).1).1,
          (runConts fetch a st).2 ++ (runConts fetch b (runConts fetch a st).1).2) := by
  induction a generalizing st with
  | nil => simp [runConts]
  | cons c cs ih => simp [runConts, ih, List.append_assoc]

theorem stepContainer_timeout (fetch : PodC → FetchResult) (st : St) (c : PodC)
    (h : fetch c = FetchResult.timeout) :
    stepContainer fetch st c = (st, [warnLine c]) := by
  simp [stepContainer, h, get_logs]

/-- C8: a container whose log fetch times out only appends its warning to
standard error: the loop state (findings and endpoint tally) after the full
run equals the state of the run without that container, the warning appears
between the warnings of the preceding and following containers, and the
following containers are processed from the same state either way. -/
theorem timeout_is_local (fetch : PodC → FetchResult) (l1 l2 : List PodC)
    (c : PodC) (st : St) (h : fetch c = FetchResult.timeout) :
    (runConts fetch (l1 ++ c :: l2) st).1 = (runConts fetch (l1 ++ l2) st).1
      ∧ (runConts fetch (l1 ++ c :: l2) st).2
        = (runConts fetch l1 st).2
          ++ warnLine c :: (runConts fetch l2 (runConts fetch l1 st).1).2
      ∧ (runConts fetch (l1 ++ l2) st).2
        = (runConts fetch l1 st).2
          ++ (runConts fetch l2 (runConts fetch l1 st).1).2 := by
  have hstep := stepContainer_timeout fetch (runConts fetch l1 st).1 c h
  rw [runConts_append fetch l1 (c :: l2) st, runConts_append fetch l1 l2 st]
  simp [runConts, hstep]

/-- C8 witness: a one-container run whose only fetch times out. -/
theorem timeout_is_local_witness :
    (fun _ : PodC => FetchResult.timeout) ⟨"default", "pod", "app"⟩
        = FetchResult.timeout
      ∧ (runConts (fun _ : PodC => FetchResult.timeout)
          ([] ++ (⟨"default", "pod", "app"⟩ : PodC) :: []) initSt).1
        = (runConts (fun _ : PodC => FetchResult.timeout) ([] ++ []) initSt).1
      ∧ (runConts (fun _ : PodC => FetchResult.timeout)
          ([] ++ (⟨"default", "pod", "app"⟩ : PodC) :: []) initSt).2
        = (runConts (fun _ : PodC => FetchResult.timeout) [] initSt).2
          ++ warnLine ⟨"default", "pod", "app"⟩
            :: (runConts (fun _ : PodC => FetchResult.timeout) []
                (runConts (fun _ : PodC => FetchResult.timeout) [] initSt).1).2 :=
  ⟨rfl,
    (timeout_is_local (fun _ => FetchResult.timeout) [] []
      ⟨"default", "pod", "app"⟩ initSt rfl).1,
    (timeout_is_local (fun _ => FetchResult.timeout) [] []
      ⟨"default", "pod", "app"⟩ initSt rfl).2.1⟩

/-- C9: the process exits nonzero exactly when the pod-listing command
returns nonzero or its output does not parse; every other run — whatever
the fetch results, findings or timeouts — exits 0. -/
theorem exit_status_iff (e : Env) :
    (mainRun e).1 ≠ 0 ↔ (e.podQuery.returncode ≠ 0 ∨ e.parsePods = none) := by
  by_cases h1 : e.podQuery.returncode = 0
  · cases h2 : e.parsePods with
    | none => simp [mainRun, get_pods, h1, h2]
    | some pods =>
      simp only [mainRun, get_pods, h1, h2, ne_eq, not_true_eq_false, if_false]
      by_cases h3 : (runConts e.fetch (contsOf pods) initSt).1.findings = [] <;>
        simp [h3, h1, h2]
  · simp [mainRun, get_pods, h1]

/-- C10: `get_logs` returns the completed command's standard output without
inspecting its exit status, so a fetch that fails without timing out (for
example, nonzero exit with empty output) produces no warning, no error, and
simply contributes whatever hits its captured output yields — none, when
the output is empty. -/
theorem nontimeout_failure_silent (fetch : PodC → FetchResult) (c : PodC)
    (st : St) (out : String) (rc : Int) (h : fetch c = FetchResult.ok out rc) :
    get_logs (FetchResult.ok out rc) = Except.ok out
      ∧ (stepContainer fetch st c).2 = []
      ∧ (stepContainer fetch st c).1 = processHits st c (scan_logs out)
      ∧ (scan_logs out = [] → stepContainer fetch st c = (st, []))
      ∧ scan_logs "" = [] := by
  refine ⟨rfl, ?_, ?_, ?_, rfl⟩
  · simp [stepContainer, h, get_logs]
  · simp [stepContainer, h, get_logs]
  · intro h0
    simp [stepContainer, h, get_logs, h0, processHits]

/-- C10 witness: a fetch that exits with status 1 and empty output is
treated as a normal empty log. -/
theorem nontimeout_failure_silent_witness :
    (fun _ : PodC => FetchResult.ok "" 1) ⟨"default", "pod", "app"⟩
        = FetchResult.ok "" 1
      ∧ (stepContainer (fun _ : PodC => FetchResult.ok "" 1) initSt
          ⟨"default", "pod", "app"⟩).2 = []
      ∧ stepContainer (fun _ : PodC => FetchResult.ok "" 1) initSt
          ⟨"default", "pod", "app"⟩ = (initSt, []) :=
  ⟨rfl,
    (nontimeout_failure_silent (fun _ => FetchResult.ok "" 1)
      ⟨"default", "pod", "app"⟩ initSt "" 1 rfl).2.1,
    (nontimeout_failure_silent (fun _ => FetchResult.ok "" 1)
      ⟨"default", "pod", "app"⟩ initSt "" 1 rfl).2.2.2.1 rfl⟩

/-- A run with a successful pod listing that parses to zero pods. -/
def noFindEnv : Env :=
  { podQuery := ⟨0, "", ""⟩
    parsePods := some []
    fetch := fun _ => FetchResult.timeout
    args := ⟨"1h", 500⟩ }

/-- C1, counterexample: in a run with zero hits, standard output is not
exactly the single line `No connectivity errors found.` — the
`Scanning N pods (since=..., tail=...)...` header is printed first
(line 87 of the script), before the loop runs. -/
theorem no_findings_output_cex :
    (mainRun noFindEnv).1 = 0
      ∧ (mainRun noFindEnv).2.1 ≠ ["No connectivity errors found."]
      ∧ (mainRun noFindEnv).2.1
        = ["Scanning 0 pods (since=1h, tail=500)...\n",
            "No connectivity errors found."] := by
  decide

/-- C1, amended: when the pod listing succeeds and no container produces a
hit (the findings map is empty), standard output is exactly the scanning
header followed by the single line `No connectivity errors found.`, nothing
else is printed to standard output, and the process terminates with
status 0. -/
theorem no_findings_output (e : Env) (pods : List Pod)
    (h1 : e.podQuery.returncode = 0) (h2 : e.parsePods = some pods)
    (h3 : (runConts e.fetch (contsOf pods) initSt).1.findings = []) :
    mainRun e
      = (0, [scanHeader pods.length e.args, "No connectivity errors found."],
          (runConts e.fetch (contsOf pods) initSt).2) := by
  simp [mainRun, get_pods, h1, h2, h3]

/-- C1 witness: the zero-pod run. -/
theorem no_findings_output_witness :
    noFindEnv.podQuery.returncode = 0
      ∧ noFindEnv.parsePods = some []
      ∧ (runConts noFindEnv.fetch (contsOf []) initSt).1.findings = []
      ∧ mainRun noFindEnv
        = (0, [scanHeader 0 noFindEnv.args, "No connectivity errors found."],
            (runConts noFindEnv.fetch (contsOf []) initSt).2) :=
  ⟨rfl, rfl, rfl, no_findings_output noFindEnv [] rfl rfl rfl⟩

end Audit
